import Mathlib

/-!
Verification of the runsc container lifecycle controller.

This file shallowly embeds the container lifecycle engine of
`runsc/container/container.go`, the flag-override logic of
`runsc/config/flags.go`, and the container signalling surface, and proves
the lifecycle invariants stated in the specification (status-transition
discipline, destroy idempotence, mount planning, OOM-score coordination,
flag-override gating, and the frame conditions of `Wait`).

Host-side effects (file locks, process signals, sentry RPCs, `os.Stat`,
`os.Remove`, cgroup operations) are modelled as explicit oracle inputs:
each such operation's outcome is a parameter of the embedded function, so
theorems quantify over every possible outcome of the host. A Go `panic`
is modelled by returning `none` from an `Option`-valued function.
-/

namespace Runsc

/-- Modelled from the spec (§3): the container status enumeration
`{Creating, Created, Running, Paused, Stopped}` declared in
`runsc/container/status.go`, which is not under `src/`. -/
inductive Status where
  | Creating
  | Created
  | Running
  | Paused
  | Stopped
deriving DecidableEq, Repr

/-- Modelled from the spec (§3): mount hints of `boot.PodMountHints`
(`runsc/boot/mounts.go` is not under `src/`). A hint carries the mount it
describes, whether the mount is shared between containers
(`ShouldShareMount`, the `shouldShare` field), and whether it is
"sandbox-local" (`IsSandboxLocal`, the `sandboxLocal` field, forcing a
self overlay even for read-only mounts). -/
structure MountHint where
  source : String
  mountType : String
  shouldShare : Bool
  sandboxLocal : Bool
deriving DecidableEq, Repr

/-- Modelled from the spec: `PodMountHints.FindMount` returns the hint
whose mount source equals the given source. -/
def findMount (hints : List MountHint) (src : String) : Option MountHint :=
  hints.find? (fun h => h.source == src)

/-- Modelled from the spec (§3, glossary): the persisted `SandboxHandle`
(`runsc/sandbox/sandbox.go` is not under `src/`): id, cgroup, pod mount
hints and the original oom_score_adj stored at sandbox creation. -/
structure Sandbox where
  id : String
  cgroup : Option String
  mountHints : List MountHint
  originalOOMScoreAdj : Int
deriving DecidableEq, Repr

/-- Modelled from the spec (glossary "Root container"):
`Sandbox.IsRootContainer(cid)` holds when the container id equals the
sandbox id. -/
def Sandbox.isRootContainer (s : Sandbox) (cid : String) : Bool :=
  s.id == cid

/-- Modelled from the spec: container-type annotation classification done
by `specutils.SpecContainerType` (not under `src/`): a spec is tagged
"sandbox", tagged "container", or carries no container-type annotation. -/
inductive ContainerType where
  | sandbox
  | container
  | unspecified
deriving DecidableEq, Repr

/-- One entry of `spec.Mounts` (the fields the lifecycle engine reads). -/
structure Mount where
  mountType : String
  source : String
  options : List String
deriving DecidableEq, Repr

/-- The mount a hint describes (`hint.Mount` in the source). -/
def MountHint.mount (h : MountHint) : Mount :=
  { mountType := h.mountType, source := h.source, options := [] }

/-- The OCI runtime spec fields read by the embedded engine code. -/
structure Spec where
  rootPath : String
  rootReadonly : Bool
  mounts : List Mount
  containerType : ContainerType
  oomScoreAdj : Option Int
deriving DecidableEq, Repr

/-- `isRoot` from `container.go`: the spec's container type is not
"container". -/
def isRoot (spec : Spec) : Bool :=
  spec.containerType != ContainerType.container

/-- Modelled from the spec: `specutils.IsGoferMount` (not under `src/`);
gofer-serviced entries of `spec.Mounts` are the bind mounts. -/
def isGoferMount (m : Mount) : Bool :=
  m.mountType == "bind"

/-- Modelled from the spec: `specutils.IsReadonlyMount` (not under
`src/`); a mount is read-only when its options contain "ro". -/
def isReadonlyMount (options : List String) : Bool :=
  options.contains "ro"

/-- Modelled from the spec (§3): the lower layer of a
`boot.GoferMountConf`: `{None, Lisafs, Erofs}`. -/
inductive LowerType where
  | noneLower
  | lisafs
  | erofs
deriving DecidableEq, Repr

/-- Modelled from the spec (§3): the upper layer of a
`boot.GoferMountConf`: `{NoOverlay, MemoryOverlay, SelfOverlay,
AnonOverlay}`. -/
inductive UpperType where
  | noOverlay
  | memoryOverlay
  | selfOverlay
  | anonOverlay
deriving DecidableEq, Repr

/-- Modelled from the spec (§3): `boot.GoferMountConf`, the pair (lower
layer, upper layer) plus an optional size, deciding how one mount point
is served. -/
structure GoferMountConf where
  lower : LowerType
  upper : UpperType
  size : String
deriving DecidableEq, Repr

/-- Modelled from the spec: `GoferMountConf.ShouldUseLisafs` — the lower
layer is served through the lisafs gofer connection. -/
def GoferMountConf.shouldUseLisafs (g : GoferMountConf) : Bool :=
  g.lower == LowerType.lisafs

/-- Modelled from the spec: `GoferMountConf.ShouldUseErofs` — the lower
layer is an EROFS image. -/
def GoferMountConf.shouldUseErofs (g : GoferMountConf) : Bool :=
  g.lower == LowerType.erofs

/-- Modelled from the spec: `GoferMountConf.IsSelfBacked` — the upper
layer is backed by a filestore in the mount source itself. -/
def GoferMountConf.isSelfBacked (g : GoferMountConf) : Bool :=
  g.upper == UpperType.selfOverlay

/-- The in-memory `Container` record of `container.go` (the fields the
embedded operations read or write). `sandbox = none` models a nil
`*sandbox.Sandbox` pointer. -/
structure Container where
  id : String
  spec : Spec
  status : Status
  goferPid : Nat
  sandbox : Option Sandbox
  compatCgroup : Option String
  saverRootDir : String
  saverSandboxID : String
  goferMountConfs : Option (List GoferMountConf)
  goferIsChild : Bool
deriving DecidableEq, Repr

/-- `Container.changeStatus` from `container.go:1467`: transitions the
status, panicking (modelled as `none`) on an invalid transition or on a
nil sandbox for the states that require one. -/
def changeStatus (c : Container) (s : Status) : Option Container :=
  match s with
  | Status.Creating =>
      -- Initial state, never transitions to it.
      none
  | Status.Created =>
      if c.status != Status.Creating then none
      else if c.sandbox.isNone then none
      else some { c with status := s }
  | Status.Paused =>
      if c.status != Status.Running then none
      else if c.sandbox.isNone then none
      else some { c with status := s }
  | Status.Running =>
      if c.status != Status.Created && c.status != Status.Paused then none
      else if c.sandbox.isNone then none
      else some { c with status := s }
  | Status.Stopped =>
      -- All states can transition to Stopped.
      some { c with status := s }

/-- The transition relation enumerated in §4.7 of the spec:
Creating→Created, Created→Running, Running→Paused, Paused→Running,
any→Stopped. -/
def allowedTransition (old new : Status) : Bool :=
  match old, new with
  | Status.Creating, Status.Created => true
  | Status.Created, Status.Running => true
  | Status.Running, Status.Paused => true
  | Status.Paused, Status.Running => true
  | _, Status.Stopped => true
  | _, _ => false

/-- A sample container used to instantiate theorems at concrete inputs. -/
def sampleSandbox : Sandbox :=
  { id := "c1", cgroup := none, mountHints := [], originalOOMScoreAdj := -998 }

/-- A sample container in status `Creating` with a live sandbox. -/
def sampleContainer : Container :=
  { id := "c1"
  , spec := { rootPath := "/rootfs", rootReadonly := false, mounts := []
            , containerType := ContainerType.unspecified, oomScoreAdj := none }
  , status := Status.Creating
  , goferPid := 0
  , sandbox := some sampleSandbox
  , compatCgroup := none
  , saverRootDir := "/var/run/runsc"
  , saverSandboxID := "c1"
  , goferMountConfs := none
  , goferIsChild := false }

/-- C1: every status change performed by `changeStatus` is one of the
transitions Creating→Created, Created→Running, Running→Paused,
Paused→Running, or any→Stopped; any other requested transition panics
(returns `none`) instead of recording a new status. -/
theorem changeStatus_transitions (c : Container) (s : Status) :
    (∀ c', changeStatus c s = some c' → allowedTransition c.status s = true)
    ∧ (allowedTransition c.status s = false → changeStatus c s = none) := by
  constructor
  · intro c' h
    cases s <;> cases hs : c.status <;>
      simp_all [changeStatus, allowedTransition]
  · intro h
    cases s <;> cases hs : c.status <;>
      simp_all [changeStatus, allowedTransition]

/-- Witness for `changeStatus_transitions` at concrete inputs: the
Creating→Created transition of the sample container is in the allowed
set, and the (invalid) Creating→Paused request panics. -/
theorem changeStatus_transitions_witness :
    allowedTransition Status.Creating Status.Created = true
    ∧ changeStatus sampleContainer Status.Paused = none := by
  refine ⟨?_, ?_⟩
  · exact (changeStatus_transitions sampleContainer Status.Created).1
      { sampleContainer with status := Status.Created } rfl
  · exact (changeStatus_transitions sampleContainer Status.Paused).2 rfl

/-- C9: whenever `changeStatus` sets the status to Created, Running or
Paused, the container's sandbox reference is non-nil; a container with a
nil sandbox can only complete a transition to Stopped. -/
theorem changeStatus_sandbox_invariant (c : Container) (s : Status) :
    (∀ c', changeStatus c s = some c' → s ≠ Status.Stopped →
      c'.sandbox.isSome = true)
    ∧ (c.sandbox = none → ∀ c', changeStatus c s = some c' →
      s = Status.Stopped) := by
  constructor
  · intro c' h hs
    cases s <;> simp_all [changeStatus] <;> cases hx : c.sandbox <;>
      simp_all <;> exact h.2 ▸ rfl
  · intro hnil c' h
    cases s <;> simp_all [changeStatus]

/-- Witness for `changeStatus_sandbox_invariant`: the sample container's
Creating→Created transition carries a non-nil sandbox, and a sandbox-less
container that completes a transition went to Stopped. -/
theorem changeStatus_sandbox_invariant_witness :
    ({ sampleContainer with status := Status.Created } : Container).sandbox.isSome = true
    ∧ (Status.Stopped = Status.Stopped) := by
  refine ⟨?_, ?_⟩
  · exact (changeStatus_sandbox_invariant sampleContainer Status.Created).1
      { sampleContainer with status := Status.Created } rfl (by decide)
  · exact (changeStatus_sandbox_invariant
      { sampleContainer with sandbox := none } Status.Stopped).2 rfl
      { sampleContainer with sandbox := none, status := Status.Stopped } rfl

/-- An observable effect on the container's state file: acquiring the
advisory lock, releasing it, or saving the metadata record. Operations
append the effects they perform, so "acquires no lock / performs no
save" is a statement about this log. -/
inductive StateEvent where
  | lockAcquired
  | unlocked
  | saved
deriving DecidableEq, Repr

/-- The world a mutating container operation acts on: the in-memory
`Container`, the on-disk metadata record (`none` when the state file does
not exist), and the chronological log of state-file effects. -/
structure World where
  c : Container
  disk : Option Container
  events : List StateEvent
deriving DecidableEq, Repr

/-- `Container.Wait` from `container.go:605`: waits on the sandbox
(outcome `rpcWait`), and on success transitions the in-memory status to
Stopped via `changeStatus`. No lock is taken and no save is performed.
`none` models a panic inside `changeStatus`. -/
def wait (w : World) (rpcWait : Except String Nat) :
    Option (Except String Nat × World) :=
  match rpcWait with
  | Except.error e => some (Except.error e, w)
  | Except.ok ws =>
      match changeStatus w.c Status.Stopped with
      | none => none
      | some c' => some (Except.ok ws, { w with c := c' })

/-- C10: a successful `Wait` only sets the in-memory status to Stopped:
the resulting world has the same on-disk record and the same state-file
event log (no lock acquired, no save performed), and the container
differs from the old one only in its `status` field. It never panics. -/
theorem wait_frame (w : World) (ws : Nat) :
    wait w (Except.ok ws) =
      some (Except.ok ws, { w with c := { w.c with status := Status.Stopped } }) := by
  simp [wait, changeStatus]

/-- Witness for `wait_frame` at a concrete world. -/
theorem wait_frame_witness :
    wait { c := sampleContainer, disk := some sampleContainer, events := [] }
        (Except.ok 0) =
      some (Except.ok 0,
        { c := { sampleContainer with status := Status.Stopped }
        , disk := some sampleContainer, events := [] }) :=
  wait_frame { c := sampleContainer, disk := some sampleContainer, events := [] } 0

/-- `Container.requireStatus` from `container.go:1536`: `none` when the
current status is one of the accepted ones, otherwise the error
message. -/
def requireStatus (c : Container) (action : String) (statuses : List Status) :
    Option String :=
  if statuses.contains c.status then none
  else some ("cannot " ++ action ++ " container " ++ c.id)

/-- `Container.IsSandboxRunning` from `container.go:1507`: the sandbox
pointer is non-nil and the sandbox process is running (the latter is a
host observation, passed as the oracle `alive`). -/
def isSandboxRunning (c : Container) (alive : Bool) : Bool :=
  c.sandbox.isSome && alive

/-- Outcome of `Container.SignalContainer`: rejected by the status
check (no signal sent), rejected because the sandbox process is gone (no
signal sent), or the signal RPC was issued with the given result. -/
inductive SignalOutcome where
  | statusRejected
  | sandboxNotRunning
  | rpcSent (result : Except String Unit)
deriving Repr

/-- `Container.SignalContainer` from `container.go:657`: requires status
Running or Stopped, then requires the sandbox process to be running, then
issues the signal RPC. -/
def signalContainer (c : Container) (alive : Bool) (rpc : Except String Unit) :
    SignalOutcome :=
  match requireStatus c "signal" [Status.Running, Status.Stopped] with
  | some _ => SignalOutcome.statusRejected
  | none =>
      if !(isSandboxRunning c alive) then SignalOutcome.sandboxNotRunning
      else SignalOutcome.rpcSent rpc

/-- C8: `SignalContainer` accepts exactly the statuses Running and
Stopped — every other status is rejected by the status check without any
signal being sent — and a Stopped container with a live sandbox is not
rejected: the signal RPC is still issued. -/
theorem signalContainer_statuses (c : Container) (alive : Bool)
    (rpc : Except String Unit) :
    ((c.status = Status.Running ∨ c.status = Status.Stopped) ↔
      signalContainer c alive rpc ≠ SignalOutcome.statusRejected)
    ∧ (c.status = Status.Stopped → c.sandbox.isSome = true → alive = true →
      signalContainer c alive rpc = SignalOutcome.rpcSent rpc) := by
  constructor
  · constructor
    · intro h
      rcases h with h | h <;>
        · simp only [signalContainer, requireStatus, h]
          cases hb : isSandboxRunning c alive <;> simp
    · intro h
      cases hs : c.status <;> simp_all [signalContainer, requireStatus]
  · intro h hsb halive
    simp [signalContainer, requireStatus, isSandboxRunning, h, hsb, halive]

/-- Witness for `signalContainer_statuses`: a Stopped container whose
init has exited but whose sandbox is alive still gets the RPC issued. -/
theorem signalContainer_statuses_witness :
    signalContainer { sampleContainer with status := Status.Stopped } true
        (Except.ok ()) = SignalOutcome.rpcSent (Except.ok ()) :=
  (signalContainer_statuses { sampleContainer with status := Status.Stopped }
      true (Except.ok ())).2 rfl rfl rfl

/-- `Container.Pause` from `container.go:714`: acquire the state-file
lock (outcome `lockOk`), reject unless the status is Created or Running,
issue the sentry Pause RPC (outcome `rpcPauseOk`), transition to Paused
via `changeStatus`, and save (outcome `saveOk`). The lock is released on
every non-panicking exit path. `none` models a panic. -/
def pause (w : World) (lockOk rpcPauseOk saveOk : Bool) :
    Option (Except String Unit × World) :=
  if !lockOk then some (Except.error "acquiring lock", w)
  else
    let locked := w.events ++ [StateEvent.lockAcquired]
    if w.c.status != Status.Created && w.c.status != Status.Running then
      some (Except.error "cannot pause container",
        { w with events := locked ++ [StateEvent.unlocked] })
    else if !rpcPauseOk then
      some (Except.error "pausing container",
        { w with events := locked ++ [StateEvent.unlocked] })
    else
      match changeStatus w.c Status.Paused with
      | none => none
      | some c' =>
          if saveOk then
            some (Except.ok (),
              { c := c', disk := some c'
              , events := locked ++ [StateEvent.saved, StateEvent.unlocked] })
          else
            some (Except.error "saving container metadata",
              { c := c', disk := w.disk
              , events := locked ++ [StateEvent.unlocked] })

/-- A sample container in status Created (with a live sandbox), as left
by a completed `create`. -/
def createdContainer : Container :=
  { sampleContainer with status := Status.Created }

/-- The world holding `createdContainer` with its saved record. -/
def createdWorld : World :=
  { c := createdContainer, disk := some createdContainer, events := [] }

/-- C3 (code bug): pausing a container in status Created — which the
guard in `Pause` accepts — panics inside `changeStatus` once the sentry
Pause RPC succeeds, because Paused is only reachable from Running. The
specification instead requires every non-Running status to produce an
error without panicking. -/
theorem pause_created_panics :
    pause createdWorld true true true = none := by
  rfl

/-- For the statuses that the `Pause` guard does reject (Creating,
Paused, Stopped), the call returns an error without panicking and leaves
the container and its saved record unchanged. -/
theorem pause_rejected_unchanged (w : World) (rpcPauseOk saveOk : Bool)
    (h : w.c.status = Status.Creating ∨ w.c.status = Status.Paused ∨
      w.c.status = Status.Stopped) :
    ∃ e, pause w true rpcPauseOk saveOk =
      some (Except.error e,
        { w with events := w.events ++
            [StateEvent.lockAcquired, StateEvent.unlocked] }) := by
  rcases h with h | h | h <;>
    exact ⟨"cannot pause container", by simp [pause, h]⟩

/-- A world holding a Stopped container with no saved record. -/
def stoppedWorld : World :=
  { c := { sampleContainer with status := Status.Stopped }
  , disk := none
  , events := [] }

/-- Witness for `pause_rejected_unchanged`: pausing a Stopped container
returns an error and leaves the world unchanged apart from the
lock/unlock log. -/
theorem pause_rejected_unchanged_witness :
    ∃ e, pause stoppedWorld true true true =
      some (Except.error e,
        { stoppedWorld with
            events := [StateEvent.lockAcquired, StateEvent.unlocked] }) := by
  have h := pause_rejected_unchanged stoppedWorld true true
    (Or.inr (Or.inr rfl))
  simpa [stoppedWorld] using h

/-- One container record loaded by `LoadSandbox` for the OOM
computation: the container-type of its spec, its spec's optional
`oom_score_adj`, and the `OriginalOOMScoreAdj` stored in its persisted
sandbox handle. -/
structure LoadedContainer where
  containerType : ContainerType
  oomScoreAdj : Option Int
  sandboxOriginalOOMScoreAdj : Int
deriving DecidableEq, Repr

/-- One step of the `lowScore`/`scoreFound` loop of
`adjustSandboxOOMScoreAdj` (`container.go:1600`): skip "sandbox"
(pause) containers, then take the lowest specified `oom_score_adj`. -/
def lowStep (acc : Option Int) (ct : LoadedContainer) : Option Int :=
  if ct.containerType == ContainerType.sandbox then acc
  else
    match ct.oomScoreAdj with
    | none => acc
    | some v =>
        match acc with
        | none => some v
        | some lo => if v < lo then some v else some lo

/-- The lowest specified `oom_score_adj` among the non-"sandbox"
containers (`none` when no such container specifies a score). -/
def lowestScore (containers : List LoadedContainer) : Option Int :=
  containers.foldl lowStep none

/-- The `oom_score_adj` values of the loaded containers whose spec
container-type is not "sandbox" and which specify a score. -/
def nonSandboxScores (containers : List LoadedContainer) : List Int :=
  (containers.filter
      (fun ct => ct.containerType != ContainerType.sandbox)).filterMap
    (fun ct => ct.oomScoreAdj)

/-- `adjustSandboxOOMScoreAdj` from `container.go:1583`. Returns the
score written to the sentry process (`some v`), or `none` when no write
is performed. `loaded` is the outcome of `LoadSandbox` (`none` models a
load error) and `writeOk` the outcome of the `/proc` write. -/
def adjustSandboxOOMScoreAdj (callerSpec : Spec) (destroy : Bool)
    (loaded : Option (List LoadedContainer)) (writeOk : Bool) :
    Except String (Option Int) :=
  -- Skip if the root container is exiting: that tears down the sandbox.
  if isRoot callerSpec && destroy then Except.ok none
  else
    match loaded with
    | none => Except.error "loading sandbox containers"
    | some containers =>
        match containers with
        | [] => Except.ok none
        | c0 :: _ =>
            let score :=
              match lowestScore containers with
              | some v => some v
              | none =>
                  if destroy then some c0.sandboxOriginalOOMScoreAdj
                  else none
            match score with
            | none => Except.ok none
            | some v =>
                if writeOk then Except.ok (some v)
                else Except.error "setting oom_score_adj"

/-- Merge of two optional scores, keeping the lower one. -/
def optMin : Option Int → Option Int → Option Int
  | none, b => b
  | some a, none => some a
  | some a, some b => some (min a b)

theorem optMin_assoc (a b c : Option Int) :
    optMin (optMin a b) c = optMin a (optMin b c) := by
  cases a <;> cases b <;> cases c <;> simp [optMin, min_assoc]

/-- The minimum of a list of scores (`none` for the empty list). -/
def minScores : List Int → Option Int
  | [] => none
  | s :: rest => optMin (some s) (minScores rest)

theorem minScores_none (l : List Int) : minScores l = none ↔ l = [] := by
  cases l with
  | nil => simp [minScores]
  | cons s rest =>
      simp only [minScores]
      cases minScores rest <;> simp [optMin]

theorem minScores_spec (l : List Int) :
    ∀ v, minScores l = some v → v ∈ l ∧ ∀ s ∈ l, v ≤ s := by
  induction l with
  | nil => intro v h; simp [minScores] at h
  | cons s rest ih =>
      intro v h
      simp only [minScores] at h
      cases hm : minScores rest with
      | none =>
          rw [hm] at h
          simp only [optMin] at h
          cases h
          have hrest : rest = [] := (minScores_none rest).mp hm
          subst hrest
          simp
      | some m =>
          rw [hm] at h
          simp only [optMin, Option.some.injEq] at h
          subst h
          obtain ⟨hmem, hle⟩ := ih m hm
          constructor
          · rcases min_choice s m with hc | hc
            · rw [hc]; exact List.mem_cons_self s rest
            · rw [hc]; exact List.mem_cons_of_mem s hmem
          · intro t ht
            rcases List.mem_cons.mp ht with rfl | ht
            · exact min_le_left t m
            · exact le_trans (min_le_right s m) (hle t ht)

/-- The `lowScore` loop of `adjustSandboxOOMScoreAdj` computes the
minimum of the specified non-"sandbox" scores, merged with the initial
accumulator. -/
theorem foldl_lowStep_eq (cs : List LoadedContainer) :
    ∀ acc, cs.foldl lowStep acc = optMin acc (minScores (nonSandboxScores cs)) := by
  induction cs with
  | nil => intro acc; cases acc <;> simp [nonSandboxScores, minScores, optMin]
  | cons ct rest ih =>
      intro acc
      rw [List.foldl_cons]
      by_cases hty : ct.containerType = ContainerType.sandbox
      · have h1 : lowStep acc ct = acc := by simp [lowStep, hty]
        have h2 : nonSandboxScores (ct :: rest) = nonSandboxScores rest := by
          simp [nonSandboxScores, List.filter_cons, hty]
        rw [h1, h2, ih]
      · cases hadj : ct.oomScoreAdj with
        | none =>
            have h1 : lowStep acc ct = acc := by
              simp [lowStep, hty, hadj]
            have h2 : nonSandboxScores (ct :: rest) = nonSandboxScores rest := by
              simp [nonSandboxScores, List.filter_cons, List.filterMap_cons,
                hty, hadj]
            rw [h1, h2, ih]
        | some w =>
            have h1 : lowStep acc ct = optMin acc (some w) := by
              cases acc with
              | none => simp [lowStep, hty, hadj, optMin]
              | some lo =>
                  simp only [lowStep, beq_iff_eq, hty, if_false, hadj, optMin]
                  by_cases hlt : w < lo
                  · simp [hlt, min_eq_right (le_of_lt hlt)]
                  · simp [hlt, min_eq_left (le_of_not_lt hlt)]
            have h2 : nonSandboxScores (ct :: rest) = w :: nonSandboxScores rest := by
              simp [nonSandboxScores, List.filter_cons, List.filterMap_cons,
                hty, hadj]
            rw [h1, h2, ih, minScores, ← optMin_assoc]

/-- C7: whenever `adjustSandboxOOMScoreAdj` writes a score to the sentry
process, that score is the minimum `oom_score_adj` over the loaded
containers whose container-type is not "sandbox" — and if no such
container specifies a score, the call is a destroy and the score written
is the `OriginalOOMScoreAdj` stored with the first loaded container's
sandbox handle. When it is not a destroy and no score is specified, no
write is performed. -/
theorem adjustSandboxOOMScoreAdj_spec (callerSpec : Spec) (destroy : Bool)
    (containers : List LoadedContainer) (writeOk : Bool) :
    (∀ v, adjustSandboxOOMScoreAdj callerSpec destroy (some containers) writeOk =
        Except.ok (some v) →
      (v ∈ nonSandboxScores containers ∧ ∀ s ∈ nonSandboxScores containers, v ≤ s)
      ∨ (nonSandboxScores containers = [] ∧ destroy = true ∧
          ∃ c0 rest, containers = c0 :: rest ∧ v = c0.sandboxOriginalOOMScoreAdj))
    ∧ (destroy = false → nonSandboxScores containers = [] →
        adjustSandboxOOMScoreAdj callerSpec destroy (some containers) writeOk =
          Except.ok none) := by
  have hlow : lowestScore containers = minScores (nonSandboxScores containers) := by
    rw [lowestScore, foldl_lowStep_eq containers none]
    rfl
  constructor
  · intro v hv
    unfold adjustSandboxOOMScoreAdj at hv
    by_cases hroot : (isRoot callerSpec && destroy) = true
    · simp [hroot] at hv
    · rw [Bool.not_eq_true] at hroot
      rw [hroot] at hv
      simp only [if_false, Bool.false_eq_true] at hv
      cases hcs : containers with
      | nil => rw [hcs] at hv; simp at hv
      | cons c0 rest =>
          rw [hcs] at hv hlow
          cases hm : lowestScore (c0 :: rest) with
          | some u =>
              rw [hm] at hv
              simp only at hv
              cases hw : writeOk with
              | false => rw [hw] at hv; simp at hv
              | true =>
                  rw [hw] at hv
                  simp only [if_true, Except.ok.injEq, Option.some.injEq] at hv
                  subst hv
                  exact Or.inl (minScores_spec _ u (hlow ▸ hm))
          | none =>
              rw [hm] at hv
              simp only at hv
              have hempty : nonSandboxScores (c0 :: rest) = [] := by
                rw [hm] at hlow
                exact (minScores_none _).mp hlow.symm
              cases hd : destroy with
              | false => rw [hd] at hv; simp at hv
              | true =>
                  rw [hd] at hv
                  simp only at hv
                  cases hw : writeOk with
                  | false => rw [hw] at hv; simp at hv
                  | true =>
                      rw [hw] at hv
                      simp only [if_true, Except.ok.injEq, Option.some.injEq] at hv
                      exact Or.inr ⟨hempty, rfl, c0, rest, rfl, hv.symm⟩
  · intro hd hempty
    unfold adjustSandboxOOMScoreAdj
    rw [hd]
    simp only [Bool.and_false, Bool.false_eq_true, if_false]
    cases hcs : containers with
    | nil => simp
    | cons c0 rest =>
        have hm : lowestScore (c0 :: rest) = none := by
          rw [← hcs, hlow, hempty]
          rfl
        simp only [hm]

/-- The two-container scenario of the spec (§8 scenario 6): scores 100
and 300 in one sandbox whose original score is -998. -/
def demoContainers : List LoadedContainer :=
  [ { containerType := ContainerType.container, oomScoreAdj := some 100
    , sandboxOriginalOOMScoreAdj := -998 }
  , { containerType := ContainerType.container, oomScoreAdj := some 300
    , sandboxOriginalOOMScoreAdj := -998 } ]

/-- Witness for `adjustSandboxOOMScoreAdj_spec`: in the two-container
scenario the score written is 100, the minimum over both containers. -/
theorem adjustSandboxOOMScoreAdj_spec_witness :
    (100 : Int) ∈ nonSandboxScores demoContainers ∧
      ∀ s ∈ nonSandboxScores demoContainers, (100 : Int) ≤ s := by
  have h := (adjustSandboxOOMScoreAdj_spec sampleContainer.spec false
    demoContainers true).1 100 rfl
  rcases h with h | h
  · exact h
  · exact absurd h.1 (by decide)

/-- Modelled from the spec (§4.4): the `config.OverlayMedium` values
used by the planner (`runsc/config/overlay.go` is not under `src/`):
no overlay, memory-backed, self-backed, or anonymous-backed in a host
directory. -/
inductive OverlayMedium where
  | noOverlay
  | memory
  | self
  | anonDir (dir : String)
deriving DecidableEq, Repr

/-- Modelled from the spec: `OverlayMedium.IsBackedByAnon`. -/
def OverlayMedium.isBackedByAnon : OverlayMedium → Bool
  | OverlayMedium.anonDir _ => true
  | _ => false

/-- Modelled from the spec (§4.4): the resolved overlay configuration
(`config.Overlay2`, not under `src/`) as seen through its accessors
`RootOverlayMedium`, `RootOverlaySize`, `SubMountOverlayMedium` and
`SubMountOverlaySize`. -/
structure OverlayConf where
  rootMedium : OverlayMedium
  rootSize : String
  subMedium : OverlayMedium
  subSize : String
deriving DecidableEq, Repr

/-- Modelled from the spec (§4.4): a `boot.RootfsHint` (not under
`src/`): the mount the rootfs annotations describe, the requested
overlay medium, and the overlay size. -/
structure RootfsHint where
  mount : Mount
  overlay : OverlayMedium
  size : String
deriving DecidableEq, Repr

/-- Modelled from the spec (§4.4, glossary "Goferless mode"):
`boot.NewRootfsHint` only accepts rootfs hints whose mount type is
EROFS, so a present rootfs hint always requests an EROFS lower layer. -/
def rootfsHintValid (h : RootfsHint) : Bool :=
  h.mount.mountType == "erofs"

/-- The mount-type switch of `createGoferConf` (`container.go:902`):
bind mounts are served through lisafs, tmpfs mounts have no lower
layer, EROFS mounts use an EROFS image; anything else is an error. -/
def lowerForMountType (mountType : String) : Except String LowerType :=
  if mountType == "bind" then Except.ok LowerType.lisafs
  else if mountType == "tmpfs" then Except.ok LowerType.noneLower
  else if mountType == "erofs" then Except.ok LowerType.erofs
  else Except.error ("unsupported mount type " ++ mountType ++ " in mount hint")

/-- `createGoferConf` from `container.go:901`: maps a mount type to its
lower layer and an overlay medium to its upper layer. A self overlay on
a non-directory source (`statIsDir`, the outcome of `os.Stat`) degrades
to a memory overlay; a stat failure is an error. -/
def createGoferConf (statIsDir : String → Option Bool)
    (overlayMedium : OverlayMedium) (overlaySize : String)
    (mountType : String) (mountSrc : String) : Except String GoferMountConf :=
  match lowerForMountType mountType with
  | Except.error e => Except.error e
  | Except.ok lower =>
      match overlayMedium with
      | OverlayMedium.noOverlay =>
          Except.ok { lower := lower, upper := UpperType.noOverlay, size := "" }
      | OverlayMedium.memory =>
          Except.ok { lower := lower, upper := UpperType.memoryOverlay
                    , size := overlaySize }
      | OverlayMedium.self =>
          match statIsDir mountSrc with
          | none =>
              Except.error ("failed to stat mount " ++ mountSrc ++
                " to see if it were a directory")
          | some false =>
              -- Self filestores need a directory source: fall back to memory.
              Except.ok { lower := lower, upper := UpperType.memoryOverlay
                        , size := overlaySize }
          | some true =>
              Except.ok { lower := lower, upper := UpperType.selfOverlay
                        , size := overlaySize }
      | OverlayMedium.anonDir _ =>
          -- The medium is backed by anon: AnonOverlay upper layer.
          Except.ok { lower := lower, upper := UpperType.anonOverlay
                    , size := overlaySize }

/-- The upper layer `createGoferConf` assigns to an overlay medium
(with the self medium degrading on non-directory sources). -/
def upperForMedium (statIsDir : String → Option Bool) (src : String) :
    OverlayMedium → UpperType
  | OverlayMedium.noOverlay => UpperType.noOverlay
  | OverlayMedium.memory => UpperType.memoryOverlay
  | OverlayMedium.self =>
      if statIsDir src = some true then UpperType.selfOverlay
      else UpperType.memoryOverlay
  | OverlayMedium.anonDir _ => UpperType.anonOverlay

/-- The upper layer produced by `createGoferConf` is decided by the
overlay medium alone. -/
theorem createGoferConf_upper (statIsDir : String → Option Bool)
    (medium : OverlayMedium) (size mt src : String) (conf : GoferMountConf)
    (h : createGoferConf statIsDir medium size mt src = Except.ok conf) :
    conf.upper = upperForMedium statIsDir src medium := by
  unfold createGoferConf at h
  cases hl : lowerForMountType mt with
  | error e => rw [hl] at h; cases h
  | ok lower =>
      rw [hl] at h
      cases medium with
      | noOverlay =>
          simp only [Except.ok.injEq] at h
          subst h; rfl
      | memory =>
          simp only [Except.ok.injEq] at h
          subst h; rfl
      | self =>
          cases hs : statIsDir src with
          | none => rw [hs] at h; cases h
          | some b =>
              rw [hs] at h
              cases b <;> simp only [Except.ok.injEq] at h <;> subst h <;>
                simp [upperForMedium, hs]
      | anonDir d =>
          simp only [Except.ok.injEq] at h
          subst h; rfl

/-- The rootfs arm of `Container.initGoferConfs` (`container.go:939`):
medium/size/mount-type come from the overlay config, overridden by the
rootfs hint, and a read-only root forces no overlay. -/
def rootConf (statIsDir : String → Option Bool) (ovl : OverlayConf)
    (rootfsHint : Option RootfsHint) (spec : Spec) :
    Except String GoferMountConf :=
  let step :=
    match rootfsHint with
    | some h =>
        (h.overlay, h.size,
          if !isGoferMount h.mount then h.mount.mountType else "bind")
    | none => (ovl.rootMedium, ovl.rootSize, "bind")
  let medium := if spec.rootReadonly then OverlayMedium.noOverlay else step.1
  createGoferConf statIsDir medium step.2.1 step.2.2 spec.rootPath

/-- The per-submount body of `Container.initGoferConfs`
(`container.go:960`): the default submount medium, overridden to no
overlay for read-only mounts, overridden to a self overlay (with the
hint's mount type and an empty size) when a pod mount hint marks the
source sandbox-local. -/
def submountConf (statIsDir : String → Option Bool) (ovl : OverlayConf)
    (mountHints : List MountHint) (m : Mount) : Except String GoferMountConf :=
  let medium₁ := if isReadonlyMount m.options then OverlayMedium.noOverlay
    else ovl.subMedium
  match findMount mountHints m.source with
  | some hint =>
      if hint.sandboxLocal then
        -- A sandbox-local hint wants a self overlay even for a read-only
        -- mount, so that a future writable mount can share it.
        let mt := if !isGoferMount hint.mount then hint.mountType else "bind"
        createGoferConf statIsDir OverlayMedium.self "" mt m.source
      else createGoferConf statIsDir medium₁ ovl.subSize "bind" m.source
  | none => createGoferConf statIsDir medium₁ ovl.subSize "bind" m.source

/-- The submount loop of `Container.initGoferConfs`: non-gofer mounts
are skipped, gofer mounts contribute one conf each, in order. -/
def submountConfs (statIsDir : String → Option Bool) (ovl : OverlayConf)
    (mountHints : List MountHint) : List Mount → Except String (List GoferMountConf)
  | [] => Except.ok []
  | m :: ms =>
      if isGoferMount m then
        match submountConf statIsDir ovl mountHints m with
        | Except.error e => Except.error e
        | Except.ok conf =>
            match submountConfs statIsDir ovl mountHints ms with
            | Except.error e => Except.error e
            | Except.ok rest => Except.ok (conf :: rest)
      else submountConfs statIsDir ovl mountHints ms

/-- `Container.initGoferConfs` from `container.go:938`: the rootfs conf
first, then one conf per gofer-serviced entry of `spec.Mounts`, in their
original order. -/
def initGoferConfs (statIsDir : String → Option Bool) (ovl : OverlayConf)
    (mountHints : List MountHint) (rootfsHint : Option RootfsHint)
    (spec : Spec) : Except String (List GoferMountConf) :=
  match rootConf statIsDir ovl rootfsHint spec with
  | Except.error e => Except.error e
  | Except.ok root =>
      match submountConfs statIsDir ovl mountHints spec.mounts with
      | Except.error e => Except.error e
      | Except.ok subs => Except.ok (root :: subs)

theorem submountConfs_forall₂ (statIsDir : String → Option Bool)
    (ovl : OverlayConf) (mountHints : List MountHint) (ms : List Mount)
    (confs : List GoferMountConf)
    (h : submountConfs statIsDir ovl mountHints ms = Except.ok confs) :
    List.Forall₂ (fun m conf => submountConf statIsDir ovl mountHints m =
      Except.ok conf) (ms.filter isGoferMount) confs := by
  induction ms generalizing confs with
  | nil =>
      simp only [submountConfs, Except.ok.injEq] at h
      subst h
      simp
  | cons m ms ih =>
      by_cases hg : isGoferMount m
      · simp only [submountConfs, hg, if_true] at h
        cases hc : submountConf statIsDir ovl mountHints m with
        | error e => rw [hc] at h; cases h
        | ok conf =>
            rw [hc] at h
            cases hr : submountConfs statIsDir ovl mountHints ms with
            | error e => rw [hr] at h; cases h
            | ok rest =>
                rw [hr] at h
                simp only [Except.ok.injEq] at h
                subst h
                rw [List.filter_cons_of_pos hg]
                exact List.Forall₂.cons hc (ih rest hr)
      · simp only [submountConfs, hg, if_false, Bool.false_eq_true] at h
        rw [List.filter_cons_of_neg (by simpa using hg)]
        exact ih confs h

/-- C5: the planned confs for the gofer-serviced entries of
`spec.Mounts` are, in order, the per-mount confs (`initGoferConfs`
returns the rootfs conf followed by exactly those), and for each such
mount: a read-only mount with no sandbox-local hint gets `NoOverlay`;
a sandbox-local hint forces `SelfOverlay` even for a read-only mount
when the source is a directory, and degrades to `MemoryOverlay` when
the source is not a directory. -/
theorem initGoferConfs_submounts (statIsDir : String → Option Bool)
    (ovl : OverlayConf) (mountHints : List MountHint)
    (rootfsHint : Option RootfsHint) (spec : Spec)
    (confs : List GoferMountConf)
    (h : initGoferConfs statIsDir ovl mountHints rootfsHint spec =
      Except.ok confs) :
    (List.Forall₂ (fun m conf => submountConf statIsDir ovl mountHints m =
        Except.ok conf) (spec.mounts.filter isGoferMount) confs.tail)
    ∧ (∀ m conf, submountConf statIsDir ovl mountHints m = Except.ok conf →
        ((isReadonlyMount m.options = true ∧
          (∀ hint, findMount mountHints m.source = some hint →
            hint.sandboxLocal = false)) →
          conf.upper = UpperType.noOverlay)
        ∧ (∀ hint, findMount mountHints m.source = some hint →
            hint.sandboxLocal = true →
            statIsDir m.source = some true →
            conf.upper = UpperType.selfOverlay)
        ∧ (∀ hint, findMount mountHints m.source = some hint →
            hint.sandboxLocal = true →
            statIsDir m.source = some false →
            conf.upper = UpperType.memoryOverlay)) := by
  constructor
  · unfold initGoferConfs at h
    cases hr : rootConf statIsDir ovl rootfsHint spec with
    | error e => rw [hr] at h; cases h
    | ok root =>
        rw [hr] at h
        cases hs : submountConfs statIsDir ovl mountHints spec.mounts with
        | error e => rw [hs] at h; cases h
        | ok subs =>
            rw [hs] at h
            simp only [Except.ok.injEq] at h
            subst h
            exact submountConfs_forall₂ statIsDir ovl mountHints spec.mounts
              subs hs
  · intro m conf hm
    refine ⟨?_, ?_, ?_⟩
    · rintro ⟨hro, hnolocal⟩
      cases hf : findMount mountHints m.source with
      | some hint =>
          have hlocal := hnolocal hint hf
          simp only [submountConf, hf, hlocal, Bool.false_eq_true, if_false,
            hro, if_true] at hm
          simpa [upperForMedium] using createGoferConf_upper statIsDir
            OverlayMedium.noOverlay ovl.subSize "bind" m.source conf hm
      | none =>
          simp only [submountConf, hf, hro, if_true] at hm
          simpa [upperForMedium] using createGoferConf_upper statIsDir
            OverlayMedium.noOverlay ovl.subSize "bind" m.source conf hm
    · intro hint hf hlocal hdir
      simp only [submountConf, hf, hlocal, if_true] at hm
      have := createGoferConf_upper statIsDir OverlayMedium.self ""
        (if !isGoferMount hint.mount then hint.mountType else "bind")
        m.source conf hm
      simpa [upperForMedium, hdir] using this
    · intro hint hf hlocal hdir
      simp only [submountConf, hf, hlocal, if_true] at hm
      have := createGoferConf_upper statIsDir OverlayMedium.self ""
        (if !isGoferMount hint.mount then hint.mountType else "bind")
        m.source conf hm
      simpa [upperForMedium, hdir] using this

/-- A stat oracle that sees every path as a directory. -/
def demoStat : String → Option Bool := fun _ => some true

/-- A default overlay configuration with memory overlays everywhere. -/
def demoOvl : OverlayConf :=
  { rootMedium := OverlayMedium.memory, rootSize := ""
  , subMedium := OverlayMedium.memory, subSize := "" }

/-- A read-only bind mount. -/
def demoROMount : Mount :=
  { mountType := "bind", source := "/ro", options := ["ro"] }

/-- A spec with a read-only root and one read-only bind mount. -/
def demoSpec : Spec :=
  { rootPath := "/rootfs", rootReadonly := true, mounts := [demoROMount]
  , containerType := ContainerType.container, oomScoreAdj := none }

/-- The conf planned for both the read-only root and the read-only
submount of `demoSpec`. -/
def demoROConf : GoferMountConf :=
  { lower := LowerType.lisafs, upper := UpperType.noOverlay, size := "" }

/-- Witness for `initGoferConfs_submounts`: the read-only submount of
`demoSpec` (with no mount hints) is planned with upper layer
`NoOverlay`. -/
theorem initGoferConfs_submounts_witness :
    submountConf demoStat demoOvl [] demoROMount = Except.ok demoROConf
    ∧ demoROConf.upper = UpperType.noOverlay := by
  have h := (initGoferConfs_submounts demoStat demoOvl [] none demoSpec
    [demoROConf, demoROConf] rfl).2 demoROMount demoROConf rfl
  exact ⟨rfl, h.1 ⟨rfl, fun hint hf => by cases hf⟩⟩

/-- The lower layer produced by `createGoferConf` is decided by the
mount type alone. -/
theorem createGoferConf_lower (statIsDir : String → Option Bool)
    (medium : OverlayMedium) (size mt src : String) (conf : GoferMountConf)
    (h : createGoferConf statIsDir medium size mt src = Except.ok conf) :
    lowerForMountType mt = Except.ok conf.lower := by
  unfold createGoferConf at h
  cases hl : lowerForMountType mt with
  | error e => rw [hl] at h; cases h
  | ok lower =>
      rw [hl] at h
      cases medium with
      | noOverlay => simp only [Except.ok.injEq] at h; subst h; rfl
      | memory => simp only [Except.ok.injEq] at h; subst h; rfl
      | self =>
          cases hs : statIsDir src with
          | none => rw [hs] at h; cases h
          | some b =>
              rw [hs] at h
              cases b <;> simp only [Except.ok.injEq] at h <;> subst h <;> rfl
      | anonDir d => simp only [Except.ok.injEq] at h; subst h; rfl

/-- A file handed to the sentry as an IO file: either the directly
opened rootfs image, or the sandbox end of a gofer socket pair. -/
inductive IOFile where
  | image (path : String)
  | lisafsSocket
deriving DecidableEq, Repr

/-- The result of `createGoferProcess`: the IO files for the sentry, the
updated container, and whether a gofer process was spawned. -/
structure GoferProcessResult where
  ioFiles : List IOFile
  c : Container
  goferSpawned : Bool
deriving Repr

/-- Host-side outcomes for `createGoferProcess`: the `os.Stat` oracle
for the mount planner, whether the nvidia hook requests GPU access
(`specutils.GPUFunctionalityRequestedViaHook`), whether a device gofer
is wanted (`shouldCreateDeviceGofer`), the per-path outcome of
`os.Open`, the outcome of the FD-donation and socket setup, the outcome
of the gofer exec, and the PID assigned to a spawned gofer. -/
structure GoferEnv where
  statIsDir : String → Option Bool
  gpuHookRequested : Bool
  deviceGoferWanted : Bool
  openOk : String → Bool
  hostOpsOk : Bool
  spawnOk : Bool
  spawnedGoferPid : Nat

/-- `shouldSpawnGofer` from `container.go:1201`: a gofer process is
needed when some mount conf uses lisafs, or when a device gofer is
requested. -/
def shouldSpawnGofer (deviceGoferWanted : Bool)
    (goferConfs : List GoferMountConf) : Bool :=
  goferConfs.any (fun cfg => cfg.shouldUseLisafs) || deviceGoferWanted

/-- The IO-file loop of `createGoferProcess` (`container.go:1346`): a
socket pair per lisafs conf, the opened rootfs image for an EROFS conf
(only legal at index 0, and dereferencing the rootfs hint — `none`
models the nil-pointer panic), nothing for a conf with no lower
layer. -/
def sandboxIOFiles (rootfsSource : Option String) (openOk : String → Bool) :
    Nat → List GoferMountConf → Option (Except String (List IOFile))
  | _, [] => some (Except.ok [])
  | i, cfg :: rest =>
      if cfg.shouldUseLisafs then
        match sandboxIOFiles rootfsSource openOk (i + 1) rest with
        | none => none
        | some (Except.error e) => some (Except.error e)
        | some (Except.ok files) =>
            some (Except.ok (IOFile.lisafsSocket :: files))
      else if cfg.shouldUseErofs then
        if i > 0 then
          some (Except.error "EROFS lower layer is only supported for root mount")
        else
          match rootfsSource with
          | none => none
          | some src =>
              if openOk src then
                match sandboxIOFiles rootfsSource openOk (i + 1) rest with
                | none => none
                | some (Except.error e) => some (Except.error e)
                | some (Except.ok files) =>
                    some (Except.ok (IOFile.image src :: files))
              else some (Except.error ("opening rootfs image " ++ src))
      else sandboxIOFiles rootfsSource openOk (i + 1) rest

/-- `Container.createGoferProcess` from `container.go:1217`, up to the
handover of the IO files: plan the mount confs, reject the nvidia hook
on a non-lisafs root, and either take the goferless branch (panicking —
`none` — unless the rootfs conf is EROFS) or spawn the gofer. The
donation/namespace plumbing of the spawn path is collapsed into the
`hostOpsOk`/`spawnOk` oracles. -/
def createGoferProcess (c : Container) (ovl : OverlayConf)
    (mountHints : List MountHint) (rootfsHint : Option RootfsHint)
    (env : GoferEnv) : Option (Except String GoferProcessResult) :=
  match initGoferConfs env.statIsDir ovl mountHints rootfsHint c.spec with
  | Except.error e => some (Except.error e)
  | Except.ok confs =>
      match confs with
      | [] => none   -- GoferMountConfs[0] of an empty slice would panic
      | conf0 :: _ =>
          let c₁ := { c with goferMountConfs := some confs }
          if !conf0.shouldUseLisafs && env.gpuHookRequested then
            some (Except.error
              "nvidia-container-runtime-hook cannot be used together with non-lisafs backed root mount")
          else if !(shouldSpawnGofer env.deviceGoferWanted confs) then
            if !conf0.shouldUseErofs then
              -- panic: goferless mode is only possible with EROFS rootfs
              none
            else
              match rootfsHint with
              | none => none   -- rootfsHint.Mount dereference: nil panic
              | some hint =>
                  if env.openOk hint.mount.source then
                    some (Except.ok
                      { ioFiles := [IOFile.image hint.mount.source]
                      , c := c₁
                      , goferSpawned := false })
                  else
                    some (Except.error
                      ("opening rootfs image " ++ hint.mount.source))
          else
            if !env.hostOpsOk then
              some (Except.error "gofer host setup failed")
            else
              match sandboxIOFiles (rootfsHint.map (fun h => h.mount.source))
                  env.openOk 0 confs with
              | none => none
              | some (Except.error e) => some (Except.error e)
              | some (Except.ok files) =>
                  if env.spawnOk then
                    let c₂ := { c₁ with goferPid := env.spawnedGoferPid,
                                        goferIsChild := true }
                    some (Except.ok
                      { ioFiles := files, c := c₂, goferSpawned := true })
                  else some (Except.error "gofer")

/-- The rootfs conf's lower layer: lisafs when there is no rootfs hint,
EROFS when a (valid) rootfs hint is present and its mount is not a bind
mount. -/
theorem rootConf_lower (statIsDir : String → Option Bool)
    (ovl : OverlayConf) (rootfsHint : Option RootfsHint) (spec : Spec)
    (conf0 : GoferMountConf)
    (h : rootConf statIsDir ovl rootfsHint spec = Except.ok conf0) :
    (rootfsHint = none → conf0.lower = LowerType.lisafs)
    ∧ (∀ hint, rootfsHint = some hint → rootfsHintValid hint = true →
        conf0.lower = LowerType.erofs) := by
  constructor
  · intro hnone
    subst hnone
    simp only [rootConf] at h
    have := createGoferConf_lower statIsDir _ _ _ _ _ h
    simp only [lowerForMountType] at this
    simp only [show (("bind" : String) == "bind") = true from rfl,
      if_true, Except.ok.injEq] at this
    exact this.symm
  · intro hint hsome hvalid
    subst hsome
    have he : hint.mount.mountType = "erofs" := by
      simpa [rootfsHintValid] using hvalid
    have hng : isGoferMount hint.mount = false := by
      simp [isGoferMount, he]
    simp only [rootConf, hng, Bool.not_false, if_true] at h
    have := createGoferConf_lower statIsDir _ _ _ _ _ h
    rw [he, show lowerForMountType "erofs" = Except.ok LowerType.erofs
      from rfl] at this
    injection this with h4
    exact h4.symm

/-- C6: whenever create decides not to spawn a gofer, the planned
rootfs conf has an EROFS lower layer — so the goferless-guard panic and
every other panic of `createGoferProcess` are unreachable — the gofer
PID of the resulting container is still 0, and the only IO file handed
to the sentry is the directly opened rootfs image. -/
theorem createGoferProcess_goferless (c : Container) (ovl : OverlayConf)
    (mountHints : List MountHint) (rootfsHint : Option RootfsHint)
    (env : GoferEnv) (confs : List GoferMountConf)
    (hconfs : initGoferConfs env.statIsDir ovl mountHints rootfsHint c.spec =
      Except.ok confs)
    (hnospawn : shouldSpawnGofer env.deviceGoferWanted confs = false)
    (hv : ∀ hint, rootfsHint = some hint → rootfsHintValid hint = true)
    (hgpu : env.gpuHookRequested = false)
    (hopen : ∀ s, env.openOk s = true)
    (hpid : c.goferPid = 0) :
    ∃ hint, rootfsHint = some hint
      ∧ (∀ conf0 rest, confs = conf0 :: rest →
          conf0.shouldUseErofs = true)
      ∧ createGoferProcess c ovl mountHints rootfsHint env =
          some (Except.ok
            { ioFiles := [IOFile.image hint.mount.source]
            , c := { c with goferMountConfs := some confs }
            , goferSpawned := false })
      ∧ ({ c with goferMountConfs := some confs } : Container).goferPid = 0 := by
  -- The planned conf list is the rootfs conf followed by the submounts.
  obtain ⟨conf0, subs, hsplit, hroot⟩ :
      ∃ conf0 subs, confs = conf0 :: subs ∧
        rootConf env.statIsDir ovl rootfsHint c.spec = Except.ok conf0 := by
    unfold initGoferConfs at hconfs
    cases hr : rootConf env.statIsDir ovl rootfsHint c.spec with
    | error e => rw [hr] at hconfs; cases hconfs
    | ok root =>
        rw [hr] at hconfs
        cases hs : submountConfs env.statIsDir ovl mountHints c.spec.mounts with
        | error e => rw [hs] at hconfs; cases hconfs
        | ok subs =>
            rw [hs] at hconfs
            simp only [Except.ok.injEq] at hconfs
            exact ⟨root, subs, hconfs.symm, rfl⟩
  -- The rootfs conf cannot use lisafs (no conf does).
  have hnolisafs : conf0.shouldUseLisafs = false := by
    by_contra hlis
    rw [Bool.not_eq_false] at hlis
    have : confs.any (fun cfg => cfg.shouldUseLisafs) = true := by
      rw [hsplit]
      exact List.any_cons ▸ (by simp [hlis])
    simp [shouldSpawnGofer, this] at hnospawn
  -- A rootfs hint must be present: otherwise the root conf uses lisafs.
  cases hint? : rootfsHint with
  | none =>
      have := (rootConf_lower _ _ _ _ _ (hint? ▸ hroot)).1 rfl
      rw [GoferMountConf.shouldUseLisafs, this] at hnolisafs
      simp at hnolisafs
  | some hint =>
      have herofs : conf0.lower = LowerType.erofs :=
        (rootConf_lower _ _ _ _ _ (hint? ▸ hroot)).2 hint rfl (hv hint hint?)
      refine ⟨hint, rfl, ?_, ?_, ?_⟩
      · intro conf0' rest' heq
        rw [hsplit] at heq
        cases heq
        simp [GoferMountConf.shouldUseErofs, herofs]
      · unfold createGoferProcess
        rw [hint?] at hconfs
        rw [hconfs, hsplit]
        simp only [hnolisafs, Bool.not_false, Bool.true_and, hgpu, if_false,
          hsplit ▸ hnospawn, Bool.not_false, if_true,
          show conf0.shouldUseErofs = true by
            simp [GoferMountConf.shouldUseErofs, herofs],
          Bool.not_true, Bool.false_eq_true, hopen hint.mount.source]
      · simpa using hpid

/-- An EROFS rootfs image mount, as described by rootfs annotations. -/
def erofsMount : Mount :=
  { mountType := "erofs", source := "/img.erofs", options := [] }

/-- A rootfs hint requesting an EROFS image with a memory overlay. -/
def erofsHint : RootfsHint :=
  { mount := erofsMount, overlay := OverlayMedium.memory, size := "" }

/-- A read-only-root spec with no bind mounts (goferless scenario). -/
def erofsSpec : Spec :=
  { rootPath := "/rootfs", rootReadonly := true, mounts := []
  , containerType := ContainerType.unspecified, oomScoreAdj := none }

/-- A fresh container for the goferless scenario. -/
def erofsContainer : Container :=
  { sampleContainer with spec := erofsSpec }

/-- A gofer environment with no GPU hook, no device gofer, and all host
operations succeeding. -/
def erofsEnv : GoferEnv :=
  { statIsDir := demoStat, gpuHookRequested := false
  , deviceGoferWanted := false, openOk := fun _ => true
  , hostOpsOk := true, spawnOk := true, spawnedGoferPid := 7 }

/-- The conf planned for the goferless EROFS root. -/
def erofsConf : GoferMountConf :=
  { lower := LowerType.erofs, upper := UpperType.noOverlay, size := "" }

/-- Witness for `createGoferProcess_goferless`: the concrete goferless
scenario hands the sentry exactly the opened EROFS image, spawns no
gofer, and leaves the gofer PID at 0. -/
theorem createGoferProcess_goferless_witness :
    createGoferProcess erofsContainer demoOvl [] (some erofsHint) erofsEnv =
      some (Except.ok
        { ioFiles := [IOFile.image "/img.erofs"]
        , c := { erofsContainer with goferMountConfs := some [erofsConf] }
        , goferSpawned := false }) := by
  obtain ⟨hint, hh, -, hrun, -⟩ := createGoferProcess_goferless erofsContainer
    demoOvl [] (some erofsHint) erofsEnv [erofsConf] rfl rfl
    (fun hint hs => by cases hs; rfl) rfl (fun s => rfl) rfl
  cases hh
  exact hrun

/-- Outcome of an `os.Remove` call. -/
inductive RemoveResult where
  | ok
  | notExist
  | err
deriving DecidableEq, Repr

/-- Modelled from the spec (§4.5): `boot.SelfFilestorePath` (not under
`src/`): the self filestore is a named file under the mount source,
keyed by the sandbox id. -/
def selfFilestorePath (mountSrc sandboxID : String) : String :=
  mountSrc ++ "/.gvisor.filestore." ++ sandboxID

/-- The submount walk of `Container.forEachSelfMount`
(`container.go:889`): the gofer mounts are matched positionally against
the remaining confs; running out of confs models the out-of-range slice
index panic (`none`). -/
def selfMountGo : List GoferMountConf → List Mount → Option (List String)
  | _, [] => some []
  | [], _ :: _ => none
  | conf :: confs, m :: ms =>
      match selfMountGo confs ms with
      | none => none
      | some tail =>
          some (if conf.isSelfBacked then m.source :: tail else tail)

/-- `Container.forEachSelfMount` from `container.go:881`, collecting the
sources it visits: nothing when the conf list is nil, otherwise the
rootfs (conf 0) and then each gofer mount whose conf is self-backed. -/
def selfMountSources (c : Container) : Option (List String) :=
  match c.goferMountConfs with
  | none => some []
  | some [] => none   -- GoferMountConfs[0] of an empty slice: panic
  | some (conf0 :: rest) =>
      match selfMountGo rest (c.spec.mounts.filter isGoferMount) with
      | none => none
      | some tail =>
          some (if conf0.isSelfBacked then c.spec.rootPath :: tail else tail)

/-- Invariant I2 as a check: the conf list, when present, has one entry
for the rootfs and at least one entry per gofer mount. -/
def goferConfsWF (c : Container) : Bool :=
  match c.goferMountConfs with
  | none => true
  | some [] => false
  | some (_ :: rest) =>
      decide ((c.spec.mounts.filter isGoferMount).length ≤ rest.length)

theorem selfMountGo_isSome (ms : List Mount) :
    ∀ confs : List GoferMountConf, ms.length ≤ confs.length →
      (selfMountGo confs ms).isSome = true := by
  induction ms with
  | nil => intro confs h; cases confs <;> simp [selfMountGo]
  | cons m ms ih =>
      intro confs h
      cases confs with
      | nil => simp at h
      | cons conf rest =>
          simp only [List.length_cons, Nat.add_le_add_iff_right] at h
          have hrec := ih rest h
          simp only [selfMountGo]
          cases hgo : selfMountGo rest ms with
          | none => rw [hgo] at hrec; simp at hrec
          | some tail => simp

theorem selfMountSources_isSome (c : Container)
    (hwf : goferConfsWF c = true) : (selfMountSources c).isSome = true := by
  unfold goferConfsWF at hwf
  unfold selfMountSources
  cases hg : c.goferMountConfs with
  | none => simp
  | some confs =>
      rw [hg] at hwf
      cases confs with
      | nil => simp at hwf
      | cons conf0 rest =>
          have hle : (c.spec.mounts.filter isGoferMount).length ≤ rest.length := by
            simpa using hwf
          have hrec := selfMountGo_isSome _ rest hle
          cases hgo : selfMountGo rest (c.spec.mounts.filter isGoferMount) with
          | none => rw [hgo] at hrec; simp at hrec
          | some tail => simp [hgo]

/-- Host-side outcomes for `Container.stop` and `waitForStopped`:
whether the sandbox process is running, the outcome of the zero-signal
probe, of `wait4`, of the kill-0 polling loop, of the
`DestroyContainer` RPC, and of the two cgroup uninstalls. -/
structure StopEnv where
  sandboxAlive : Bool
  signal0 : Except String Unit
  wait4Ok : Bool
  pollOk : Bool
  rpcDestroyOk : Bool
  compatUninstallOk : Bool
  parentUninstallOk : Bool

/-- `Container.waitForStopped` from `container.go:1160`: nothing to do
when the gofer PID is 0; a live container (probed via the zero signal)
is an error; a child gofer is reaped via `wait4`, a non-child one via a
bounded kill-0 poll; on success the gofer PID is reset to 0. -/
def waitForStopped (c : Container) (env : StopEnv) : Except String Container :=
  if c.goferPid == 0 then Except.ok c
  else
    match signalContainer c env.sandboxAlive env.signal0 with
    | SignalOutcome.rpcSent (Except.ok _) =>
        Except.error "container is still running"
    | _ =>
        if c.goferIsChild then
          if env.wait4Ok then Except.ok { c with goferPid := 0 }
          else Except.error "error waiting the gofer process"
        else
          if env.pollOk then Except.ok { c with goferPid := 0 }
          else Except.error "gofer is still running"

/-- The tail of `Container.stop` after the sandbox RPC: SIGKILL the
gofer (fire and forget), wait for it, then uninstall the compat cgroup
and, for a root container, the parent cgroup. -/
def stopTail (c : Container) (parentCgroup : Option String) (env : StopEnv) :
    Option String × Container :=
  match waitForStopped c env with
  | Except.error e => (some e, c)
  | Except.ok c₁ =>
      if c₁.compatCgroup.isSome && !env.compatUninstallOk then
        (some "uninstalling container cgroup", c₁)
      else if parentCgroup.isSome && !env.parentUninstallOk then
        (some "uninstalling parent cgroup", c₁)
      else (none, c₁)

/-- `Container.stop` from `container.go:1115`: destroy the container
over the sandbox RPC (failing fast on an RPC error, with the sandbox
kept), remember the parent cgroup for a root container, nil the sandbox
only after the RPC, then reap the gofer and uninstall the cgroups. -/
def stop (c : Container) (env : StopEnv) : Option String × Container :=
  match c.sandbox with
  | some sb =>
      if !env.rpcDestroyOk then
        (some ("destroying container " ++ c.id), c)
      else
        stopTail { c with sandbox := none }
          (if sb.isRootContainer c.id then sb.cgroup else none) env
  | none => stopTail c none env

/-- Host-side outcomes for `Container.Destroy`: the state-file lock, the
`stop` oracles, `StateFile.Destroy`, the per-path `os.Remove` outcomes,
the `LoadSandbox` outcome, and the oom_score_adj write. -/
structure DestroyEnv where
  lockOk : Bool
  stopEnv : StopEnv
  saverDestroyOk : Bool
  removeFilestore : String → RemoveResult
  loaded : Option (List LoadedContainer)
  oomWriteOk : Bool

/-- All of a destroy's external operations succeed. -/
def DestroyEnv.allOk (env : DestroyEnv) : Prop :=
  env.lockOk = true ∧ env.stopEnv.rpcDestroyOk = true
  ∧ env.stopEnv.wait4Ok = true ∧ env.stopEnv.pollOk = true
  ∧ env.stopEnv.compatUninstallOk = true
  ∧ env.stopEnv.parentUninstallOk = true
  ∧ env.saverDestroyOk = true
  ∧ (∀ p, env.removeFilestore p = RemoveResult.ok)
  ∧ (∃ cs, env.loaded = some cs) ∧ env.oomWriteOk = true

/-- The filestore deletion inside `forEachSelfMount`'s callback in
`Destroy` (`container.go:819`): delete the self filestore under the
mount source, reporting any failure. -/
def destroySelfRemove (remove : String → RemoveResult)
    (sandboxID src : String) : Option String :=
  match remove (selfFilestorePath src sandboxID) with
  | RemoveResult.ok => none
  | _ => some ("failed to delete filestore file " ++ src)

/-- The callback `Destroy` passes to `forEachSelfMount`
(`container.go:810`): a mount whose pod mount hint says the mount is
shared is skipped — the sandbox owns the shared master mount and its
filestore is deleted with the root container — otherwise the filestore
is deleted. -/
def destroySelfFilestore (sb : Option Sandbox)
    (remove : String → RemoveResult) (sandboxID src : String) :
    Option String :=
  match sb with
  | some s =>
      match findMount s.mountHints src with
      | some hint =>
          if hint.shouldShare then none
          else destroySelfRemove remove sandboxID src
      | none => destroySelfRemove remove sandboxID src
  | none => destroySelfRemove remove sandboxID src

/-- The body of `Container.Destroy` (`container.go:774`) after the lock
is held: run `stop`, delete the state files, delete self filestores
(skipping shared mounts, which the root container deletes best-effort,
ignoring not-exist), transition to Stopped, adjust the sandbox OOM
score — collecting every error instead of halting. `none` models a
panic. -/
def destroyRun (c : Container) (env : DestroyEnv) :
    Option (List String × Container) :=
  let sb := c.sandbox
  let stopRes := stop c env.stopEnv
  let c₁ := stopRes.2
  let errs₀ : List String :=
    match stopRes.1 with
    | some e => ["stopping container: " ++ e]
    | none => []
  let errs₁ := errs₀ ++
    (if env.saverDestroyOk then [] else ["deleting container state files"])
  match selfMountSources c₁ with
  | none => none
  | some selfSrcs =>
      let errs₂ := errs₁ ++ selfSrcs.filterMap
        (destroySelfFilestore sb env.removeFilestore c₁.saverSandboxID)
      let errs₃ := errs₂ ++
        (match sb with
         | some s =>
             if s.isRootContainer c.id then
               (s.mountHints.filter (fun h => h.shouldShare)).filterMap
                 (fun hnt =>
                   match env.removeFilestore
                       (selfFilestorePath hnt.source c₁.saverSandboxID) with
                   | RemoveResult.err =>
                       some ("failed to delete shared filestore file " ++
                         hnt.source)
                   | _ => none)
             else []
         | none => [])
      match changeStatus c₁ Status.Stopped with
      | none => none
      | some c₂ =>
          let errs₄ := errs₃ ++
            (match sb with
             | some _ =>
                 match adjustSandboxOOMScoreAdj c.spec true env.loaded
                     env.oomWriteOk with
                 | Except.error e => [e]
                 | Except.ok _ => []
             | none => [])
          some (errs₄, c₂)

/-- `Container.Destroy` from `container.go:774`: take the lock, run the
cleanup body, and return nil when no error was collected, else the
concatenation of all collected errors. -/
def destroy (c : Container) (env : DestroyEnv) :
    Option (Except String Unit × Container) :=
  if !env.lockOk then
    some (Except.error "cannot lock container metadata file", c)
  else
    match destroyRun c env with
    | none => none
    | some (errs, c') =>
        if errs.isEmpty then some (Except.ok (), c')
        else some (Except.error (String.intercalate "\n" errs), c')

theorem waitForStopped_allOk (c : Container) (env : StopEnv)
    (hsb : c.sandbox = none) (hw : env.wait4Ok = true)
    (hp : env.pollOk = true) :
    waitForStopped c env = Except.ok { c with goferPid := 0 } := by
  unfold waitForStopped
  cases h0 : (c.goferPid == 0) with
  | true =>
      simp only [h0, if_true]
      have h0' : c.goferPid = 0 := by simpa using h0
      cases c
      simp_all
  | false =>
      simp only [h0, Bool.false_eq_true, if_false]
      split
      · rename_i heq
        exfalso
        unfold signalContainer at heq
        cases hrs : requireStatus c "signal" [Status.Running, Status.Stopped] with
        | some msg => rw [hrs] at heq; cases heq
        | none =>
            rw [hrs] at heq
            simp [isSandboxRunning, hsb] at heq
      · cases hch : c.goferIsChild <;> simp [hch, hw, hp]

/-- Every successful `waitForStopped` returns the container unchanged or
with the gofer PID reset to 0. -/
theorem waitForStopped_ok_shape (c : Container) (env : StopEnv) :
    ∀ c', waitForStopped c env = Except.ok c' →
      c' = c ∨ c' = { c with goferPid := 0 } := by
  intro c' h
  unfold waitForStopped at h
  cases h0 : (c.goferPid == 0) with
  | true =>
      rw [h0] at h
      simp only [if_true, Except.ok.injEq] at h
      exact Or.inl h.symm
  | false =>
      rw [h0] at h
      simp only [Bool.false_eq_true, if_false] at h
      split at h
      · cases h
      · split at h
        · split at h
          · injection h with h2; exact Or.inr h2.symm
          · cases h
        · split at h
          · injection h with h2; exact Or.inr h2.symm
          · cases h

theorem stopTail_allOk (c : Container) (pc : Option String) (env : StopEnv)
    (hsb : c.sandbox = none) (hw : env.wait4Ok = true) (hp : env.pollOk = true)
    (hcu : env.compatUninstallOk = true) (hpu : env.parentUninstallOk = true) :
    stopTail c pc env = (none, { c with goferPid := 0 }) := by
  unfold stopTail
  rw [waitForStopped_allOk c env hsb hw hp]
  simp [hcu, hpu]

/-- The container as left by a fully successful `stop`: no sandbox, no
gofer. -/
def stoppedOf (c : Container) : Container :=
  { c with sandbox := none, goferPid := 0 }

/-- The container as left by a fully successful `Destroy`. -/
def destroyedOf (c : Container) : Container :=
  { c with sandbox := none, goferPid := 0, status := Status.Stopped }

theorem stop_allOk (c : Container) (env : StopEnv)
    (hrpc : env.rpcDestroyOk = true) (hw : env.wait4Ok = true)
    (hp : env.pollOk = true) (hcu : env.compatUninstallOk = true)
    (hpu : env.parentUninstallOk = true) :
    stop c env = (none, stoppedOf c) := by
  unfold stop stoppedOf
  cases hsb : c.sandbox with
  | some sb =>
      simp only [hrpc, Bool.not_true, Bool.false_eq_true, if_false]
      exact stopTail_allOk _ _ env rfl hw hp hcu hpu
  | none =>
      rw [stopTail_allOk c none env hsb hw hp hcu hpu]
      cases c
      simp_all

theorem stopTail_preserves (c : Container) (pc : Option String)
    (env : StopEnv) :
    (stopTail c pc env).2.spec = c.spec
    ∧ (stopTail c pc env).2.goferMountConfs = c.goferMountConfs
    ∧ (stopTail c pc env).2.saverSandboxID = c.saverSandboxID := by
  cases hwr : waitForStopped c env with
  | error e => simp [stopTail, hwr]
  | ok c₁ =>
      simp only [stopTail, hwr]
      have hfields : c₁.spec = c.spec ∧ c₁.goferMountConfs = c.goferMountConfs
          ∧ c₁.saverSandboxID = c.saverSandboxID := by
        rcases waitForStopped_ok_shape c env c₁ hwr with h | h <;> subst h <;>
          exact ⟨rfl, rfl, rfl⟩
      split
      · exact hfields
      · split
        · exact hfields
        · exact hfields

theorem stop_preserves (c : Container) (env : StopEnv) :
    (stop c env).2.spec = c.spec
    ∧ (stop c env).2.goferMountConfs = c.goferMountConfs
    ∧ (stop c env).2.saverSandboxID = c.saverSandboxID := by
  cases hsb : c.sandbox with
  | some sb =>
      cases hrpc : env.rpcDestroyOk with
      | false => simp only [stop, hsb, hrpc]; exact ⟨rfl, rfl, rfl⟩
      | true =>
          simp only [stop, hsb, hrpc, Bool.not_true, Bool.false_eq_true,
            if_false]
          exact stopTail_preserves _ _ env
  | none =>
      simp only [stop, hsb]
      exact stopTail_preserves c none env

/-- `adjustSandboxOOMScoreAdj` cannot fail when the containers loaded
and the proc write succeeded. -/
theorem adjust_ok (callerSpec : Spec) (destroy : Bool)
    (cs : List LoadedContainer) :
    ∃ r, adjustSandboxOOMScoreAdj callerSpec destroy (some cs) true =
      Except.ok r := by
  unfold adjustSandboxOOMScoreAdj
  cases hroot : (isRoot callerSpec && destroy) with
  | true => exact ⟨none, by simp⟩
  | false =>
      simp only [Bool.false_eq_true, if_false]
      cases cs with
      | nil => exact ⟨none, rfl⟩
      | cons c0 rest =>
          simp only
          cases lowestScore (c0 :: rest) with
          | some v => exact ⟨some v, rfl⟩
          | none =>
              cases destroy with
              | true => exact ⟨some c0.sandboxOriginalOOMScoreAdj, rfl⟩
              | false => exact ⟨none, rfl⟩

theorem destroyRun_no_panic (c : Container) (env : DestroyEnv)
    (hwf : goferConfsWF c = true) : destroyRun c env ≠ none := by
  have hpres := stop_preserves c env.stopEnv
  have hwf1 : goferConfsWF (stop c env.stopEnv).2 = true := by
    unfold goferConfsWF at hwf ⊢
    rw [hpres.2.1, hpres.1]
    exact hwf
  have hsome := selfMountSources_isSome _ hwf1
  unfold destroyRun
  cases hsm : selfMountSources (stop c env.stopEnv).2 with
  | none => rw [hsm] at hsome; simp at hsome
  | some srcs =>
      simp only [hsm]
      simp [changeStatus]

/-- When every `os.Remove` succeeds, the `forEachSelfMount` callback of
`Destroy` collects no error — whether the mount was skipped as shared
or its filestore deleted. -/
theorem destroySelfFilestore_none (sb : Option Sandbox)
    (remove : String → RemoveResult) (sandboxID src : String)
    (h : ∀ p, remove p = RemoveResult.ok) :
    destroySelfFilestore sb remove sandboxID src = none := by
  have hrem : destroySelfRemove remove sandboxID src = none := by
    unfold destroySelfRemove
    rw [h]
  unfold destroySelfFilestore
  cases sb with
  | none => exact hrem
  | some s =>
      cases hf : findMount s.mountHints src with
      | none => simp [hf, hrem]
      | some hint =>
          cases hs : hint.shouldShare with
          | true => simp [hf, hs]
          | false => simp [hf, hs, hrem]

theorem destroyRun_allOk (c : Container) (env : DestroyEnv)
    (hwf : goferConfsWF c = true) (h : env.allOk) :
    destroyRun c env = some ([], destroyedOf c) := by
  obtain ⟨hl, hrpc, hw, hp, hcu, hpu, hsd, hrm, ⟨cs, hld⟩, hoom⟩ := h
  have hstop := stop_allOk c env.stopEnv hrpc hw hp hcu hpu
  have hwf1 : goferConfsWF (stoppedOf c) = true := hwf
  have hsome := selfMountSources_isSome _ hwf1
  unfold destroyRun
  rw [hstop]
  cases hsm : selfMountSources (stoppedOf c) with
  | none =>
      rw [hsm] at hsome
      simp at hsome
  | some srcs =>
      simp only [hsm, hsd]
      have hself : ∀ sbx, srcs.filterMap
          (destroySelfFilestore sbx env.removeFilestore
            (stoppedOf c).saverSandboxID) = [] := by
        intro sbx
        rw [List.filterMap_eq_nil_iff]
        intro a ha
        exact destroySelfFilestore_none sbx env.removeFilestore _ a hrm
      have hstatus : changeStatus (stoppedOf c) Status.Stopped =
          some (destroyedOf c) := rfl
      obtain ⟨r, hr⟩ := adjust_ok c.spec true cs
      cases hsb : c.sandbox with
      | none => simp [hself, hstatus]
      | some sb =>
          have hshared : (sb.mountHints.filter
              (fun hh => hh.shouldShare)).filterMap (fun hnt =>
                match env.removeFilestore
                    (selfFilestorePath hnt.source
                      (stoppedOf c).saverSandboxID) with
                | RemoveResult.err =>
                    some ("failed to delete shared filestore file " ++
                      hnt.source)
                | _ => none) = [] := by
            rw [List.filterMap_eq_nil_iff]
            intro a ha
            rw [hrm]
          simp [hself, hstatus, hshared, hld, hoom, hr]

theorem destroy_allOk (c : Container) (env : DestroyEnv)
    (hwf : goferConfsWF c = true) (h : env.allOk) :
    destroy c env = some (Except.ok (), destroyedOf c) := by
  unfold destroy
  rw [h.1, destroyRun_allOk c env hwf h]
  simp

/-- C2: `Destroy` never panics (for any outcome of the host operations,
given invariant I2 on the conf list); with the host operations
succeeding, two back-to-back destroys both succeed (the second is a
no-op on an already-stopped, sandbox-less container); and every run of
the destroy body finishes its cleanup — the result is Stopped — with
all collected errors aggregated into the single returned error. -/
theorem destroy_idempotent (c : Container) (env₁ env₂ : DestroyEnv)
    (hwf : goferConfsWF c = true) (h₁ : env₁.allOk) (h₂ : env₂.allOk) :
    (∀ env, destroy c env ≠ none)
    ∧ (∃ c₁ c₂, destroy c env₁ = some (Except.ok (), c₁)
        ∧ destroy c₁ env₂ = some (Except.ok (), c₂))
    ∧ (∀ env errs c', destroyRun c env = some (errs, c') →
        c'.status = Status.Stopped
        ∧ (env.lockOk = true →
            destroy c env = some ((if errs.isEmpty then Except.ok ()
              else Except.error (String.intercalate "\n" errs)), c'))) := by
  refine ⟨?_, ?_, ?_⟩
  · intro env
    unfold destroy
    cases hlk : env.lockOk with
    | false => simp
    | true =>
        simp only [Bool.not_true, Bool.false_eq_true, if_false]
        have hnp := destroyRun_no_panic c env hwf
        cases hdr : destroyRun c env with
        | none => exact absurd hdr hnp
        | some p =>
            cases p with
            | mk errs c' => by_cases he : errs.isEmpty <;> simp [he]
  · exact ⟨destroyedOf c, destroyedOf (destroyedOf c),
      destroy_allOk c env₁ hwf h₁, destroy_allOk _ env₂ hwf h₂⟩
  · intro env errs c' hrun
    constructor
    · simp only [destroyRun] at hrun
      cases hsm : selfMountSources (stop c env.stopEnv).2 with
      | none => rw [hsm] at hrun; cases hrun
      | some srcs =>
          rw [hsm] at hrun
          simp only [show ∀ x : Container, changeStatus x Status.Stopped =
              some { x with status := Status.Stopped } from fun x => rfl,
            Option.some.injEq, Prod.mk.injEq] at hrun
          rw [← hrun.2]
    · intro hlk
      unfold destroy
      rw [hlk, hrun]
      by_cases he : errs.isEmpty <;> simp [he]

/-- A container with a planned EROFS rootfs conf, satisfying I2. -/
def destroyDemoContainer : Container :=
  { erofsContainer with goferMountConfs := some [erofsConf] }

/-- A stop environment where every host operation succeeds. -/
def allOkStopEnv : StopEnv :=
  { sandboxAlive := false, signal0 := Except.ok (), wait4Ok := true
  , pollOk := true, rpcDestroyOk := true, compatUninstallOk := true
  , parentUninstallOk := true }

/-- A destroy environment where every host operation succeeds. -/
def allOkDestroyEnv : DestroyEnv :=
  { lockOk := true, stopEnv := allOkStopEnv, saverDestroyOk := true
  , removeFilestore := fun _ => RemoveResult.ok, loaded := some []
  , oomWriteOk := true }

/-- Witness for `destroy_idempotent`: two destroys of the concrete
container both succeed. -/
theorem destroy_idempotent_witness :
    ∃ c₁ c₂, destroy destroyDemoContainer allOkDestroyEnv =
        some (Except.ok (), c₁)
      ∧ destroy c₁ allOkDestroyEnv = some (Except.ok (), c₂) :=
  (destroy_idempotent destroyDemoContainer allOkDestroyEnv allOkDestroyEnv rfl
    ⟨rfl, rfl, rfl, rfl, rfl, rfl, rfl, fun _ => rfl, ⟨[], rfl⟩, rfl⟩
    ⟨rfl, rfl, rfl, rfl, rfl, rfl, rfl, fun _ => rfl, ⟨[], rfl⟩, rfl⟩).2.1

/-- Go's `strconv.ParseBool`: accepts 1/t/T/TRUE/true/True and
0/f/F/FALSE/false/False. -/
def parseGoBool (v : String) : Except String Bool :=
  if v == "1" || v == "t" || v == "T" || v == "TRUE" || v == "true"
      || v == "True" then
    Except.ok true
  else if v == "0" || v == "f" || v == "F" || v == "FALSE" || v == "false"
      || v == "False" then
    Except.ok false
  else Except.error ("invalid boolean value " ++ v)

/-- A uint flag value parse. -/
def parseGoUint (v : String) : Except String Nat :=
  match v.toNat? with
  | some n => Except.ok n
  | none => Except.error ("invalid uint value " ++ v)

/-- The host-uds flag accepts none, open, create or all. -/
def parseHostUDS (v : String) : Except String String :=
  if v == "none" || v == "open" || v == "create" || v == "all" then
    Except.ok v
  else Except.error ("invalid host-uds value " ++ v)

/-- Modelled from the spec (the --overlay2 help text in `flags.go`):
the parsed overlay2 flag value: which mounts are wrapped and the
overlay medium. -/
structure Overlay2Flag where
  rootMount : Bool
  subMounts : Bool
  medium : OverlayMedium
  size : String
deriving DecidableEq, Repr

/-- Modelled from the spec (the --overlay2 help text in `flags.go`):
`Overlay2.Set` parses "none" or "{mount}:{medium}[,size={size}]" with
mount in {root, all} and medium in {memory, self, dir=/abs/path}. -/
def parseOverlay2 (v : String) : Except String Overlay2Flag :=
  if v == "none" then
    Except.ok { rootMount := false, subMounts := false
              , medium := OverlayMedium.noOverlay, size := "" }
  else
    match v.splitOn ":" with
    | [mountPart, rest] =>
        if !(mountPart == "root" || mountPart == "all") then
          Except.error ("unexpected mount list " ++ mountPart)
        else
          let parts := rest.splitOn ",size="
          let mediumStr := parts.headD ""
          let size := (parts.drop 1).headD ""
          if mediumStr == "memory" then
            Except.ok { rootMount := true, subMounts := mountPart == "all"
                      , medium := OverlayMedium.memory, size := size }
          else if mediumStr == "self" then
            Except.ok { rootMount := true, subMounts := mountPart == "all"
                      , medium := OverlayMedium.self, size := size }
          else if mediumStr.startsWith "dir=" then
            Except.ok { rootMount := true, subMounts := mountPart == "all"
                      , medium := OverlayMedium.anonDir (mediumStr.drop 4)
                      , size := size }
          else Except.error ("unexpected overlay medium " ++ mediumStr)
    | _ => Except.error ("unexpected overlay2 format " ++ v)

/-- `checkOverlay2` from `flags.go:200`: overlay2 can be overridden via
annotation only with the none, memory or self medium. -/
def checkOverlay2 (_name value : String) : Except String Unit :=
  match parseOverlay2 value with
  | Except.error _ => Except.error "invalid overlay2 annotation"
  | Except.ok o =>
      match o.medium with
      | OverlayMedium.noOverlay => Except.ok ()
      | OverlayMedium.memory => Except.ok ()
      | OverlayMedium.self => Except.ok ()
      | OverlayMedium.anonDir _ =>
          Except.error (value ++
            " overlay medium requires flag allow-flag-override to be enabled")

/-- `checkOciSeccomp` from `flags.go:214`: seccomp can be enabled but
not disabled via annotation. -/
def checkOciSeccomp (name value : String) : Except String Unit :=
  match parseGoBool value with
  | Except.error e => Except.error e
  | Except.ok enable =>
      if !enable then
        Except.error ("disabling " ++ name ++
          " requires flag allow-flag-override to be enabled")
      else Except.ok ()

/-- `overrideAllowlist` from `flags.go:183`: the flags that may be
overridden without `--allow-flag-override`, each with an optional value
check. -/
def overrideAllowlist :
    List (String × Option (String → String → Except String Unit)) :=
  [ ("debug", none), ("debug-to-user-log", none), ("strace", none)
  , ("strace-syscalls", none), ("strace-log-size", none), ("host-uds", none)
  , ("net-disconnect-ok", none), ("reproduce-nftables", none)
  , ("overlay2", some checkOverlay2), ("oci-seccomp", some checkOciSeccomp) ]

/-- The named flag is in the override allowlist. -/
def isAllowlisted (name : String) : Bool :=
  (overrideAllowlist.find? (fun p => p.1 == name)).isSome

/-- Modelled from the spec (§9 "Dynamic reflection over a config
struct"): the flag-tagged fields of `Config` (`runsc/config/config.go`
is not under `src/`), restricted to a representative subset — every
allowlisted flag, plus the non-allowlisted `platform` and
`allow-flag-override`. -/
structure Config where
  debug : Bool
  debugToUserLog : Bool
  strace : Bool
  straceSyscalls : String
  straceLogSize : Nat
  hostUDS : String
  netDisconnectOK : Bool
  reproduceNFTables : Bool
  ociSeccomp : Bool
  overlay2 : Overlay2Flag
  platform : String
  allowFlagOverride : Bool
deriving DecidableEq, Repr

/-- The flag names carried by the embedded `Config` fields. -/
def configFlagNames : List String :=
  [ "debug", "debug-to-user-log", "strace", "strace-syscalls"
  , "strace-log-size", "host-uds", "net-disconnect-ok", "reproduce-nftables"
  , "oci-seccomp", "overlay2", "platform", "allow-flag-override" ]

/-- The `fl.Value.Set` + field assignment of `Config.Override`,
specialised to the embedded fields: parse the string with the flag's
own parser and store the result. -/
def setConfigFlag (c : Config) (name value : String) : Except String Config :=
  if name == "debug" then
    (parseGoBool value).map (fun b => { c with debug := b })
  else if name == "debug-to-user-log" then
    (parseGoBool value).map (fun b => { c with debugToUserLog := b })
  else if name == "strace" then
    (parseGoBool value).map (fun b => { c with strace := b })
  else if name == "strace-syscalls" then
    Except.ok { c with straceSyscalls := value }
  else if name == "strace-log-size" then
    (parseGoUint value).map (fun n => { c with straceLogSize := n })
  else if name == "host-uds" then
    (parseHostUDS value).map (fun s => { c with hostUDS := s })
  else if name == "net-disconnect-ok" then
    (parseGoBool value).map (fun b => { c with netDisconnectOK := b })
  else if name == "reproduce-nftables" then
    (parseGoBool value).map (fun b => { c with reproduceNFTables := b })
  else if name == "oci-seccomp" then
    (parseGoBool value).map (fun b => { c with ociSeccomp := b })
  else if name == "overlay2" then
    (parseOverlay2 value).map (fun o => { c with overlay2 := o })
  else if name == "platform" then
    Except.ok { c with platform := value }
  else if name == "allow-flag-override" then
    (parseGoBool value).map (fun b => { c with allowFlagOverride := b })
  else Except.error ("flag " ++ name ++ " not found")

/-- Modelled from the spec: `Config.validate` (`config.go`, not under
`src/`) places no constraint on the embedded subset of fields. -/
def validateConfig (c : Config) : Except String Config :=
  Except.ok c

/-- `Config.isOverrideAllowed` from `flags.go:448`: any override is
allowed when `--allow-flag-override` is set; otherwise only allowlisted
flags, subject to their value check. -/
def isOverrideAllowed (c : Config) (name value : String) :
    Except String Unit :=
  if c.allowFlagOverride then Except.ok ()
  else
    match overrideAllowlist.find? (fun p => p.1 == name) with
    | some entry =>
        match entry.2 with
        | some check => check name value
        | none => Except.ok ()
    | none =>
        Except.error "flag override disabled, use --allow-flag-override to enable it"

/-- `Config.Override` from `flags.go:413`: find the field whose flag tag
matches the name (error if none), consult `isOverrideAllowed` unless
forced, parse and assign the value, and re-validate. An error leaves
the configuration unchanged (the caller keeps the old value). -/
def Override (c : Config) (name value : String) (force : Bool) :
    Except String Config :=
  if configFlagNames.contains name then
    match (if force then Except.ok () else isOverrideAllowed c name value) with
    | Except.error e =>
        Except.error ("error setting flag " ++ name ++ "=" ++ value ++
          ": " ++ e)
    | Except.ok _ =>
        match setConfigFlag c name value with
        | Except.error e => Except.error e
        | Except.ok c1 => validateConfig c1
  else
    Except.error ("flag " ++ name ++ " not found. Cannot set it to " ++ value)

/-- C4 (amended): an annotation-driven override (`force = false`) is
applied only when `isOverrideAllowed` passes, which holds exactly when
the runtime allows flag overrides or the named flag is allowlisted
(with its value check passing); when neither permission holds, Override
returns an error and the configuration is left unchanged. -/
theorem override_permission (c : Config) (name value : String) :
    (∀ c1, Override c name value false = Except.ok c1 →
      isOverrideAllowed c name value = Except.ok ())
    ∧ (isOverrideAllowed c name value = Except.ok () →
        c.allowFlagOverride = true ∨ isAllowlisted name = true)
    ∧ (c.allowFlagOverride = false → isAllowlisted name = false →
        ∃ e, Override c name value false = Except.error e) := by
  refine ⟨?_, ?_, ?_⟩
  · intro c1 hov
    unfold Override at hov
    cases hc : configFlagNames.contains name with
    | false => rw [hc] at hov; cases hov
    | true =>
        rw [hc] at hov
        simp only [if_true, if_false, Bool.false_eq_true] at hov
        cases hal : isOverrideAllowed c name value with
        | error e => rw [hal] at hov; cases hov
        | ok u => cases u; rfl
  · intro hal
    unfold isOverrideAllowed at hal
    cases haf : c.allowFlagOverride with
    | true => exact Or.inl rfl
    | false =>
        rw [haf] at hal
        simp only [Bool.false_eq_true, if_false] at hal
        cases hf : overrideAllowlist.find? (fun p => p.1 == name) with
        | some entry => exact Or.inr (by simp [isAllowlisted, hf])
        | none => rw [hf] at hal; cases hal
  · intro haf hwl
    have hal : isOverrideAllowed c name value =
        Except.error
          "flag override disabled, use --allow-flag-override to enable it" := by
      unfold isOverrideAllowed
      rw [haf]
      simp only [Bool.false_eq_true, if_false]
      unfold isAllowlisted at hwl
      cases hf : overrideAllowlist.find? (fun p => p.1 == name) with
      | some entry => rw [hf] at hwl; simp at hwl
      | none => rfl
    cases hc : configFlagNames.contains name with
    | false =>
        refine ⟨"flag " ++ name ++ " not found. Cannot set it to " ++ value, ?_⟩
        unfold Override
        rw [hc]
        simp
    | true =>
        refine ⟨"error setting flag " ++ name ++ "=" ++ value ++ ": " ++
          "flag override disabled, use --allow-flag-override to enable it", ?_⟩
        unfold Override
        rw [hc]
        simp [hal]

/-- A configuration with `--allow-flag-override` enabled. -/
def permissiveConfig : Config :=
  { debug := false, debugToUserLog := false, strace := false
  , straceSyscalls := "", straceLogSize := 1024, hostUDS := "none"
  , netDisconnectOK := true, reproduceNFTables := false, ociSeccomp := false
  , overlay2 := { rootMount := false, subMounts := false
                , medium := OverlayMedium.noOverlay, size := "" }
  , platform := "systrap", allowFlagOverride := true }

/-- C4 counterexample: with `--allow-flag-override` set, an override of
the non-allowlisted flag `platform`, requested with `force = false` as
the annotation path does, is applied — so an override is not applied
"only when the runtime allows flag overrides and the named flag is
whitelisted": the allowlist membership is not required. -/
theorem override_nonAllowlisted_applied :
    Override permissiveConfig "platform" "kvm" false =
      Except.ok { permissiveConfig with platform := "kvm" }
    ∧ isAllowlisted "platform" = false := by
  exact ⟨rfl, rfl⟩

/-- Witness for `override_permission`: with overrides disallowed, the
non-allowlisted `platform` flag cannot be overridden. -/
theorem override_permission_witness :
    ∃ e, Override { permissiveConfig with allowFlagOverride := false }
        "platform" "kvm" false = Except.error e :=
  (override_permission { permissiveConfig with allowFlagOverride := false }
    "platform" "kvm").2.2 rfl rfl

end Runsc
